import Mathlib

/-!
# Verification of the spectater document-compliance evaluator

Shallow embedding of the core algorithms of the repository:

* the verdict reconciliation engine of `evaluate_requirements`
  (src/app.py lines 717-809),
* the Textract geometry reconciliation of `convert_textract_to_markdown`
  (src/app.py lines 363-420) and `is_line_in_table`
  (src/textract_to_markdown.py lines 181-204),
* the HTML-table Markdown formatter `_html_table_to_md`
  (src/app.py lines 275-294),
* the extraction decision logic of `extract_text_from_file`
  (src/app.py lines 422-556).

Python dict-shaped JSON values are modelled with structures whose optional
fields are `Option`; machine floats of the geometry code are modelled as
rationals with an explicit round-half-even rounding to four decimal digits.
-/

/-! ## Verdict reconciliation: data model

One element of the model response's `requirements` array
(src/app.py lines 742-746).  The Python code reads `req.get('pass', False)`
(absent key defaults to `False`) and `req.get('pass_status')` (absent key is
`None`); we model the `pass` key as `Option Bool` (`none` = key absent) and
`pass_status` as `Option String`. -/
structure Req where
  pass : Option Bool
  pass_status : Option String
deriving DecidableEq

/-- Truthiness of `req.get('pass', False)` (src/app.py line 743). -/
def reqPass (r : Req) : Bool := r.pass.getD false

/-- The model-reported `summary` object (src/app.py lines 749-753); each field
is read with `.get(key, 0)`.  The field `partials` models the JSON key
"partial".  Fields are integers as reported by the model. -/
@[ext] structure Summary where
  totalChecks : Int
  passed : Int
  partials : Int
  failed : Int
deriving DecidableEq

/-- `actual_passed` (src/app.py line 743): items with a truthy `pass` whose
`pass_status` is not "PARTIAL". -/
def actual_passed (reqs : List Req) : Nat :=
  reqs.countP (fun r => reqPass r && !(r.pass_status == some "PARTIAL"))

/-- `actual_partial` (src/app.py line 744): items with a truthy `pass` whose
`pass_status` is "PARTIAL".  (Name pluralised.) -/
def actual_partials (reqs : List Req) : Nat :=
  reqs.countP (fun r => reqPass r && (r.pass_status == some "PARTIAL"))

/-- `actual_failed` (src/app.py line 745): items with a falsy or absent
`pass`. -/
def actual_failed (reqs : List Req) : Nat :=
  reqs.countP (fun r => !(reqPass r))

/-- `actual_total` (src/app.py line 746). -/
def actual_total (reqs : List Req) : Nat := reqs.length

/-- The summary rewritten with the recomputed counts
(src/app.py lines 763-766). -/
def correctedSummary (reqs : List Req) : Summary :=
  ⟨actual_total reqs, actual_passed reqs, actual_partials reqs, actual_failed reqs⟩

/-- `json_data.get('summary', {})` followed by `.get(field, 0)` reads
(src/app.py lines 749-753): an absent summary object yields all-zero
reported counts. -/
def summaryOrDefault (s? : Option Summary) : Summary := s?.getD ⟨0, 0, 0, 0⟩

/-- The inconsistency test of src/app.py line 757, in the source's order:
total, passed, failed, partial. -/
def isInconsistent (s? : Option Summary) (reqs : List Req) : Bool :=
  let s := summaryOrDefault s?
  !((actual_total reqs : Int) == s.totalChecks)
    || !((actual_passed reqs : Int) == s.passed)
    || !((actual_failed reqs : Int) == s.failed)
    || !((actual_partials reqs : Int) == s.partials)

/-- `all_passed` (src/app.py line 769). -/
def all_passed (reqs : List Req) : Bool := reqs.all reqPass

/-- `has_partial` (src/app.py line 770): any item whose `pass_status` is
"PARTIAL", regardless of its `pass` value.  (Name pluralised.) -/
def has_partials (reqs : List Req) : Bool :=
  reqs.any (fun r => r.pass_status == some "PARTIAL")

/-- The status derivation of src/app.py lines 772-777. -/
def verdict (reqs : List Req) : String :=
  if all_passed reqs && !has_partials reqs then "GREEN"
  else if has_partials reqs && (actual_failed reqs == 0) then "YELLOW"
  else "RED"

/-- The summary-reconciliation step of `evaluate_requirements`
(src/app.py lines 741-788) on the parsed JSON content: recompute the four
counts, and when any differs from the reported summary overwrite the summary
fields with the recomputed counts (src/app.py lines 763-766).  The overwrite
executes `json_data['summary'][...] = ...`; when the JSON has no summary
object this raises a `KeyError` (the earlier reads used
`json_data.get('summary', {})`, which does not create the key), modelled as
`Except.error`.  Otherwise the derived status and the summary as left in
`json_data` are returned. -/
def reconcile (s? : Option Summary) (reqs : List Req) :
    Except String (String × Summary) :=
  if isInconsistent s? reqs then
    match s? with
    | none => Except.error "KeyError: summary"
    | some _ => Except.ok (verdict reqs, correctedSummary reqs)
  else
    Except.ok (verdict reqs, summaryOrDefault s?)

/-! ## JSON extraction from the model's free-text response

`evaluate_requirements` locates the JSON object in the response text with two
methods (src/app.py lines 717-735): a fenced-code-block regex
(method 1) and brace counting from the first opening brace (method 2).
When neither finds a JSON string, the function raises
`ValueError("Response does not contain required JSON structure")`
(src/app.py lines 807-809); there is no other response format handled. -/

/-- The opening-brace character (spelled by code point). -/
def lbrace : Char := Char.ofNat 123

/-- The closing-brace character (spelled by code point). -/
def rbrace : Char := Char.ofNat 125

/-- Python `\s` on ASCII text: space, tab, newline, carriage return,
vertical tab, form feed. -/
def isPyWS (c : Char) : Bool :=
  c = ' ' || c = '\t' || c = '\n' || c = '\r' || c = Char.ofNat 11 || c = Char.ofNat 12

/-- Python `str.strip()`: drop leading and trailing whitespace. -/
def pyStrip (cs : List Char) : List Char :=
  ((cs.dropWhile isPyWS).reverse.dropWhile isPyWS).reverse

/-- Python `str.replace(a, r)` for a one-character needle, at the character
level. -/
def replaceChar (a : Char) (r : List Char) (cs : List Char) : List Char :=
  cs.foldr (fun c acc => if c = a then r ++ acc else c :: acc) []

/-- The three-backtick fence delimiter. -/
def fenceMarker : List Char := "```".data

/-- The literal word of the optional `json` language tag. -/
def jsonWord : List Char := "json".data

/-- Index of the first occurrence of `needle` as a contiguous sublist of
`hay` (Python `str.find`). -/
def findSubIdx (needle : List Char) : List Char → Option Nat
  | [] => if needle.isEmpty then some 0 else none
  | c :: t =>
    if needle.isPrefixOf (c :: t) then some 0
    else (findSubIdx needle t).map (· + 1)

/-- Index of the last occurrence of `needle` as a contiguous sublist of
`hay`. -/
def lastSubIdx (needle : List Char) : List Char → Option Nat
  | [] => none
  | c :: t =>
    match lastSubIdx needle t with
    | some i => some (i + 1)
    | none => if needle.isPrefixOf (c :: t) then some 0 else none

/-- The text after the opening fence, the optional `json` tag and the
optional whitespace, at which the method-1 capture group must begin. -/
def fenceTail (cs : List Char) : List Char :=
  (if jsonWord.isPrefixOf (cs.drop 3) then (cs.drop 3).drop 4 else cs.drop 3).dropWhile
    isPyWS

/-- One attempt of the method-1 regex
with the match anchored at the head of `cs`: a fence, an optional `json`
tag, optional whitespace, then a capture group starting with an opening
brace; the greedy capture extends to the last fence in the remaining text
(the regex tail consumes only whitespace before the closing fence).
Returns the captured group. -/
def fenceAt (cs : List Char) : Option (List Char) :=
  if fenceMarker.isPrefixOf cs then
    match fenceTail cs with
    | [] => none
    | a :: _ =>
      if a = lbrace then
        match lastSubIdx fenceMarker (fenceTail cs) with
        | some i => some ((fenceTail cs).take i)
        | none => none
      else none
  else none

/-- `re.search` of the method-1 pattern: try a match at each successive
start position. -/
def fenceSearch : List Char → Option (List Char)
  | [] => none
  | c :: t =>
    match fenceAt (c :: t) with
    | some cap => some cap
    | none => fenceSearch t

/-- The brace-counting loop of method 2 (src/app.py lines 727-735), run on
the suffix starting at the first opening brace: `n` characters consumed so
far at depth `depth`; returns the length of the segment ending at the brace
that returns the depth to zero, or `none` when the braces never balance. -/
def braceLoop : List Char → Int → Nat → Option Nat
  | [], _, _ => none
  | c :: t, depth, n =>
    if c = lbrace then braceLoop t (depth + 1) (n + 1)
    else if c = rbrace then
      if depth - 1 = 0 then some (n + 1) else braceLoop t (depth - 1) (n + 1)
    else braceLoop t depth (n + 1)

/-- Method 2 (src/app.py lines 724-735): find the first opening brace and
take the substring through the brace that balances it. -/
def braceExtract (text : List Char) : Option (List Char) :=
  match findSubIdx [lbrace] text with
  | none => none
  | some i =>
    let s := text.drop i
    match braceLoop s 0 0 with
    | some n => some (s.take n)
    | none => none

/-- The JSON-string extraction of src/app.py lines 717-735: the fenced-block
regex first (its captured group stripped), then brace counting. -/
def extract_json_str (text : List Char) : Option (List Char) :=
  match fenceSearch text with
  | some cap => some (pyStrip cap)
  | none => braceExtract text

/-- The response handling of `evaluate_requirements` after the model call
(src/app.py lines 717-809): extract the JSON string; if none is found raise
`ValueError("Response does not contain required JSON structure")`.  The
`json.loads` parse of the extracted string is the external `json` library;
the requirements array and summary object it would produce are supplied as
the arguments `reqs` and `s?` (consulted only when a JSON string was
found). -/
def evaluate_response (text : List Char) (reqs : List Req) (s? : Option Summary) :
    Except String (String × Summary) :=
  match extract_json_str text with
  | some _ => reconcile s? reqs
  | none => Except.error "Response does not contain required JSON structure"

/-- The legacy-variant sample response text of C5. -/
def legacyText : List Char := "...RED because clause 4 is unmet...".data

/-! ## Extraction decision: image-based PDF detection

src/app.py lines 431-455: on a PDF, the local text layer of every page is
read; `is_image_pdf` is true when every page's text is empty after
stripping.  When `is_image_pdf and page_count > 0`, the document is sent to
Textract OCR directly; otherwise the standard pymupdf4llm extraction path
(with its fallbacks) runs first. -/

/-- Which extraction branch `extract_text_from_file` takes for a PDF:
`ocr` is the direct Textract branch (src/app.py lines 446-454), `standard`
the pymupdf4llm path with its fallbacks (src/app.py lines 455-496). -/
inductive PdfRoute
  | ocr
  | standard
deriving DecidableEq

/-- Truthiness of `not page.get_text().strip()` for one page: the extracted
text is empty or all whitespace (src/app.py lines 438-442). -/
def strippedEmpty (t : String) : Bool := t.data.all isPyWS

/-- The routing decision of src/app.py lines 434-455: `pages` holds the
text-layer text of each page as returned by the local reader. -/
def pdf_route (pages : List String) : PdfRoute :=
  let is_image_pdf := pages.all strippedEmpty
  if is_image_pdf && decide (0 < pages.length) then PdfRoute.ocr
  else PdfRoute.standard

/-! ## HTML-table Markdown formatter

`_html_table_to_md` (src/app.py lines 275-294) receives the parse of one
HTML table fragment produced by the external `pymupdf4llm.Table` parser;
we model that parse result as `HtmlTable`. -/

/-- A parsed column alignment (`pymupdf4llm.Alignment`). -/
inductive ColAlign
  | left
  | center
  | right
deriving DecidableEq

/-- One parsed column (only its alignment is consulted). -/
structure ColumnInfo where
  alignment : ColAlign
deriving DecidableEq

/-- The external parser's view of one HTML table fragment: header cell
texts, per-column alignment info, and the data rows' cell texts. -/
structure HtmlTable where
  headers : List String
  columns : List ColumnInfo
  rows : List (List String)
deriving DecidableEq

/-- The alignment-marker row cells (src/app.py lines 280-286):
`["---"] * len(headers)` with the entry at each column's index overwritten
for center/right alignment; a left-aligned column writes nothing. -/
def alignMarks (t : HtmlTable) : List String :=
  t.columns.enum.foldl
    (fun acc ic =>
      match ic.2.alignment with
      | ColAlign.center => acc.set ic.1 ":---:"
      | ColAlign.right => acc.set ic.1 "---:"
      | ColAlign.left => acc)
    (List.replicate t.headers.length "---")

/-- In Python the overwrite `alignments[i] = ...` raises `IndexError` when a
center- or right-aligned column's index is at or beyond the header count. -/
def alignIndexErr (t : HtmlTable) : Bool :=
  t.columns.enum.any
    (fun ic => !(ic.2.alignment == ColAlign.left) && decide (t.headers.length ≤ ic.1))

/-- The pipe-joined row strings, in emission order (src/app.py lines
288-292): the header row, the alignment row, then each data row with
newlines in cell text replaced by spaces.  No row is padded or truncated. -/
def tableRowStrings (t : HtmlTable) : List String :=
  String.intercalate "|" t.headers
    :: String.intercalate "|" (alignMarks t)
    :: t.rows.map (fun row => String.intercalate "|" (row.map (fun c => String.mk (replaceChar '\n' [' '] c.data))))

/-- `_html_table_to_md` (src/app.py lines 275-294): the rows joined with
`"|\n"` and bracketed by blank lines, or the `IndexError` escape. -/
def html_table_to_md (t : HtmlTable) : Except String String :=
  if alignIndexErr t then Except.error "IndexError"
  else Except.ok ("\n\n" ++ String.intercalate "|\n" (tableRowStrings t) ++ "\n\n")

/-! ## Plain text / Markdown extraction path

For a non-PDF upload, `extract_text_from_file` reads the file content
verbatim (src/app.py lines 528-531) and then falls through to the common
tail: the global HTML-table regex substitution (lines 533-539) and the
`MAX_CHARS_PER_DOC` truncation (lines 541-546). -/

/-- ASCII word character of the regex `\b` boundary. -/
def isWordChar (c : Char) : Bool := c.isAlpha || c.isDigit || c = '_'

/-- The lowercased opening tag literal. -/
def tagOpen : List Char := "<table".data

/-- The lowercased closing tag literal. -/
def tagClose : List Char := "</table>".data

/-- One attempt of the table regex `<table[\b][^>]*>.*?</table>`
(case-insensitive, DOTALL) anchored at the head of `cs`: the lowercased
text must start with `<table` followed by a non-word character, then the
first `>` closes the opening tag, and the lazy body ends at the first
`</table>`.  Returns the matched fragment and the rest of the text. -/
def matchTableAt (cs : List Char) : Option (List Char × List Char) :=
  if (cs.take 6).map Char.toLower = tagOpen then
    match cs.drop 6 with
    | [] => none
    | d :: _ =>
      if isWordChar d then none
      else
        match findSubIdx ['>'] (cs.drop 6) with
        | none => none
        | some k =>
          match findSubIdx tagClose ((cs.drop (6 + k + 1)).map Char.toLower) with
          | none => none
          | some j =>
            let n := 6 + k + 1 + j + 8
            some (cs.take n, cs.drop n)
  else none

/-- The scan of `re.sub` (src/app.py lines 534-539): each non-overlapping
leftmost match is replaced by `f` applied to the matched fragment (`f`
stands for `_html_table_to_md` composed with the external HTML parse);
unmatched characters are kept.  `fuel` bounds the recursion and is
initialised to the text length, which each step strictly decreases by at
least one consumed character. -/
def subTablesAux (f : List Char → List Char) : Nat → List Char → List Char
  | _, [] => []
  | 0, l => l
  | fuel + 1, c :: t =>
    match matchTableAt (c :: t) with
    | some (m, rest) => f m ++ subTablesAux f fuel rest
    | none => c :: subTablesAux f fuel t

/-- The whole-text HTML-table substitution (src/app.py lines 533-539). -/
def sub_html_tables (f : List Char → List Char) (s : List Char) : List Char :=
  subTablesAux f s.length s

/-- Does the table regex match anywhere in the text? -/
def hasTableMatch : List Char → Bool
  | [] => false
  | c :: t => (matchTableAt (c :: t)).isSome || hasTableMatch t

/-- The `MAX_CHARS_PER_DOC` truncation (src/app.py lines 541-546): with a
positive configured budget smaller than the text length, hard-cut to the
budget. -/
def apply_char_limit (max_chars : Nat) (t : String) : String :=
  if 0 < max_chars && decide (max_chars < t.length) then t.take max_chars else t

/-- The non-PDF branch of `extract_text_from_file`
(src/app.py lines 528-549): the file content read verbatim, then the
HTML-table substitution, then the character-budget truncation. -/
def extract_plain (f : List Char → List Char) (content : String) (max_chars : Nat) :
    String :=
  apply_char_limit max_chars (String.mk (sub_html_tables f content.data))

/-! ## Geometry reconciliation of Textract output

`convert_textract_to_markdown` (src/app.py lines 363-420) collects the
rounded bounding boxes of all table cells on a page, drops every line whose
rounded top-left corner lies inside the extent of some rounded cell box,
emits the remaining lines as body text, and then renders each table.  The
same containment test is `is_line_in_table`
(src/textract_to_markdown.py lines 181-204).  Coordinates are modelled as
rationals; `round(x, 4)` is modelled as round-half-even at four decimal
digits. -/

/-- A normalized bounding box (`geometry.boundingBox`). -/
structure BBox where
  top : ℚ
  left : ℚ
  width : ℚ
  height : ℚ
deriving DecidableEq

/-- Round-half-even to an integer (Python `round` on ties-to-even). -/
def rhe (q : ℚ) : ℤ :=
  let f : ℤ := ⌊q⌋
  if q - f < 1 / 2 then f
  else if 1 / 2 < q - f then f + 1
  else if f % 2 = 0 then f else f + 1

/-- Python `round(q, 4)`. -/
def round4 (q : ℚ) : ℚ := (rhe (q * 10000) : ℚ) / 10000

/-- The rounded position key of a box (src/app.py lines 379 and 386). -/
def posKey (b : BBox) : BBox :=
  ⟨round4 b.top, round4 b.left, round4 b.width, round4 b.height⟩

/-- One table cell block: its bounding box (absent when the block carries no
geometry) and its text. -/
structure Cell where
  geometry : Option BBox
  text : String
deriving DecidableEq

/-- One line block: its bounding box (absent when the block carries no
geometry) and its text. -/
structure OcrLine where
  geometry : Option BBox
  text : String
deriving DecidableEq

/-- The collected rounded cell boxes of a page
(src/app.py lines 372-380): every cell of every row of every table that
carries geometry contributes its rounded box.  The Python `set` is modelled
as a list, membership being all that is consulted. -/
def table_positions (tables : List (List (List Cell))) : List BBox :=
  (tables.flatten.flatten).filterMap (fun c => c.geometry.map posKey)

/-- The containment test of src/app.py lines 389-394 (equally
`is_line_in_table`, src/textract_to_markdown.py lines 195-204): the rounded
line corner `lk` falls within the extent of some rounded cell box. -/
def in_table_check (tps : List BBox) (lk : BBox) : Bool :=
  tps.any (fun t =>
    decide (t.top ≤ lk.top) && decide (lk.top ≤ t.top + t.height)
      && decide (t.left ≤ lk.left) && decide (lk.left ≤ t.left + t.width))

/-- The texts of the lines emitted as body text, in order
(src/app.py lines 383-398): a line is emitted when it carries geometry and
its rounded corner is in no rounded cell box.  (In
`convert_textract_to_markdown` a line without geometry is skipped
entirely.) -/
def page_body_lines (tps : List BBox) (lines : List OcrLine) : List String :=
  lines.filterMap (fun l =>
    match l.geometry with
    | some b => if in_table_check tps (posKey b) then none else some l.text
    | none => none)

/-- The body-text part of the page Markdown: each emitted line followed by a
blank line (src/app.py line 398). -/
def page_body_md (tps : List BBox) (lines : List OcrLine) : String :=
  (page_body_lines tps lines).foldl (fun acc t => acc ++ t ++ "\n\n") ""

/-- One rendered cell (src/app.py lines 407-408): the text stripped, pipes
escaped, newlines replaced by `<br>`. -/
def render_cell (c : Cell) : String :=
  String.mk (replaceChar '\n' "<br>".data (replaceChar '|' "\\|".data (pyStrip c.text.data)))

/-- One rendered table row (src/app.py lines 405-409). -/
def render_row (row : List Cell) : String :=
  row.foldl (fun acc c => acc ++ " " ++ render_cell c ++ " |") "|"

/-- The separator emitted after the header row (src/app.py line 415). -/
def sepRow (n : Nat) : String :=
  "|" ++ String.join (List.replicate n " --- |")

/-- One rendered table (src/app.py lines 404-418): each row then, after the
first row only, the separator. -/
def render_table (tb : List (List Cell)) : String :=
  tb.enum.foldl
    (fun acc rrow =>
      acc ++ render_row rrow.2 ++ "\n"
        ++ (if rrow.1 = 0 then sepRow rrow.2.length ++ "\n" else ""))
    ""

/-- The tables part of the page Markdown (src/app.py lines 401-418). -/
def page_tables_md (tables : List (List (List Cell))) : String :=
  tables.enum.foldl
    (fun acc itb =>
      acc ++ "### Table " ++ toString (itb.1 + 1) ++ "\n\n" ++ render_table itb.2 ++ "\n")
    ""

/-- The Markdown produced for one page (src/app.py lines 368-418, the body
of the page loop for page 1): body lines first, then the tables. -/
def page_markdown (tables : List (List (List Cell))) (lines : List OcrLine) : String :=
  page_body_md (table_positions tables) lines ++ page_tables_md tables

/-- The claim's geometric-overlap premise, spec-side: two boxes do not
overlap when they are separated along one of the axes. -/
def boxesDisjoint (a b : BBox) : Bool :=
  decide (a.top + a.height ≤ b.top) || decide (b.top + b.height ≤ a.top)
    || decide (a.left + a.width ≤ b.left) || decide (b.left + b.width ≤ a.left)

/-! ## Helper lemmas for the verdict reconciler -/

/-- The three recomputed categories partition the requirements array. -/
theorem counts_partition (reqs : List Req) :
    actual_passed reqs + actual_partials reqs + actual_failed reqs = reqs.length := by
  induction reqs with
  | nil => rfl
  | cons r t ih =>
    unfold actual_passed actual_partials actual_failed at *
    by_cases h1 : reqPass r <;> by_cases h2 : r.pass_status == some "PARTIAL" <;>
      simp [List.countP_cons, h1, h2] <;> omega

/-- A summary that passes the consistency test carries exactly the
recomputed counts. -/
theorem consistent_summary_eq (s : Summary) (reqs : List Req)
    (h : isInconsistent (some s) reqs = false) : s = correctedSummary reqs := by
  unfold isInconsistent summaryOrDefault at h
  simp only [Option.getD_some, Bool.or_eq_false_iff, Bool.not_eq_false', beq_iff_eq] at h
  obtain ⟨⟨⟨h1, h2⟩, h3⟩, h4⟩ := h
  ext <;> simp [correctedSummary, ← h1, ← h2, ← h3, ← h4]

/-- `all_passed` is exactly the absence of failed items. -/
theorem all_passed_iff (reqs : List Req) :
    all_passed reqs = true ↔ actual_failed reqs = 0 := by
  unfold all_passed actual_failed
  rw [List.all_eq_true, List.countP_eq_zero]
  simp

/-! ## C1: verdict precedence rule -/

/-- C1: the verdict is derived from the itemized array by the fixed
precedence rule — all items pass and none partial gives GREEN, else at
least one partial with zero failed gives YELLOW, else (any failed item)
RED; and on the concrete scenario
`[pass, pass+PARTIAL, fail]` with reported summary `(2,2,0,0)` the
corrected summary is `(3,1,1,1)` and the verdict RED. -/
theorem c1_verdict_rule :
    (∀ reqs : List Req, (∀ r ∈ reqs, reqPass r = true) →
      (∀ r ∈ reqs, r.pass_status ≠ some "PARTIAL") → verdict reqs = "GREEN")
  ∧ (∀ reqs : List Req, (∃ r ∈ reqs, r.pass_status = some "PARTIAL") →
      actual_failed reqs = 0 → verdict reqs = "YELLOW")
  ∧ (∀ reqs : List Req, (∃ r ∈ reqs, reqPass r = false) → verdict reqs = "RED")
  ∧ reconcile (some ⟨2, 2, 0, 0⟩)
      [⟨some true, none⟩, ⟨some true, some "PARTIAL"⟩, ⟨some false, none⟩]
      = Except.ok ("RED", ⟨3, 1, 1, 1⟩) := by
  refine ⟨?_, ?_, ?_, rfl⟩
  · intro reqs hall hnp
    have ha : all_passed reqs = true := List.all_eq_true.mpr hall
    have hp : has_partials reqs = false := by
      unfold has_partials
      rw [List.any_eq_false]
      intro r hr
      simp [hnp r hr]
    simp [verdict, ha, hp]
  · intro reqs hex hf
    have hp : has_partials reqs = true := by
      unfold has_partials
      rw [List.any_eq_true]
      obtain ⟨r, hr, h⟩ := hex
      exact ⟨r, hr, by simp [h]⟩
    have ha : all_passed reqs = true := (all_passed_iff reqs).mpr hf
    simp [verdict, ha, hp, hf]
  · intro reqs hex
    have hf : actual_failed reqs ≠ 0 := by
      obtain ⟨r, hr, h⟩ := hex
      have : 0 < actual_failed reqs := by
        unfold actual_failed
        rw [List.countP_pos_iff]
        exact ⟨r, hr, by simp [h]⟩
      omega
    have ha : all_passed reqs = false := by
      cases h : all_passed reqs with
      | false => rfl
      | true => exact absurd ((all_passed_iff reqs).mp h) hf
    simp [verdict, ha, hf]

/-! ## C2: the corrected summary always balances -/

/-- C2: for every requirements array the recomputed counts satisfy
`passed + partial + failed = total`, and every summary returned by the
reconciler satisfies the same balance. -/
theorem c2_counts_partition :
    (∀ reqs : List Req,
      actual_passed reqs + actual_partials reqs + actual_failed reqs = actual_total reqs)
  ∧ (∀ (s? : Option Summary) (reqs : List Req) (v : String) (s : Summary),
      reconcile s? reqs = Except.ok (v, s) →
      s.passed + s.partials + s.failed = s.totalChecks) := by
  constructor
  · exact counts_partition
  · intro s? reqs v s h
    have hbal : (correctedSummary reqs).passed + (correctedSummary reqs).partials
        + (correctedSummary reqs).failed = (correctedSummary reqs).totalChecks := by
      simp only [correctedSummary]
      have := counts_partition reqs
      unfold actual_total
      omega
    unfold reconcile at h
    by_cases hc : isInconsistent s? reqs
    · rw [if_pos hc] at h
      cases s? with
      | none => exact absurd h (by simp)
      | some s0 =>
        simp only [Except.ok.injEq, Prod.mk.injEq] at h
        rw [← h.2]
        exact hbal
    · rw [if_neg hc] at h
      simp only [Except.ok.injEq, Prod.mk.injEq] at h
      cases s? with
      | none =>
        rw [← h.2]
        simp [summaryOrDefault]
      | some s0 =>
        have := consistent_summary_eq s0 reqs (by simpa using hc)
        rw [← h.2]
        simp only [summaryOrDefault, Option.getD_some, this]
        exact hbal

/-! ## C3: empty requirements array -/

/-- C3 counterexample: on an empty requirements array the reconciler
neither raises nor returns RED — it returns GREEN (vacuous truth), both
with the summary object absent and with an all-zero summary. -/
theorem c3_empty_green_cex :
    actual_total ([] : List Req) = 0
  ∧ reconcile none ([] : List Req) = Except.ok ("GREEN", ⟨0, 0, 0, 0⟩)
  ∧ reconcile (some ⟨0, 0, 0, 0⟩) ([] : List Req)
      = Except.ok ("GREEN", ⟨0, 0, 0, 0⟩) :=
  ⟨rfl, rfl, rfl⟩

/-- C3 amended: an empty requirements array gives `actual_total = 0` and
the verdict GREEN by vacuous truth — for every reported summary the
reconciler returns GREEN, never an error and never RED. -/
theorem c3_empty_green :
    actual_total ([] : List Req) = 0
  ∧ verdict ([] : List Req) = "GREEN"
  ∧ (∀ s? : Option Summary, ∃ s, reconcile s? ([] : List Req) = Except.ok ("GREEN", s)) := by
  refine ⟨rfl, rfl, ?_⟩
  intro s?
  unfold reconcile
  by_cases h : isInconsistent s? ([] : List Req)
  · rw [if_pos h]
    cases s? with
    | none => exact absurd h (by decide)
    | some s => exact ⟨correctedSummary [], rfl⟩
  · rw [if_neg h]
    exact ⟨summaryOrDefault s?, rfl⟩

/-! ## C4: inconsistent summaries -/

/-- C4 counterexample: with the summary object absent from the JSON and a
one-element requirements array, the recomputed counts differ from the zero
defaults and the reconciler raises a `KeyError` instead of silently
overwriting — the inconsistency is surfaced as an error. -/
theorem c4_missing_summary_cex :
    isInconsistent none [(⟨some true, none⟩ : Req)] = true
  ∧ reconcile none [(⟨some true, none⟩ : Req)] = Except.error "KeyError: summary" :=
  ⟨rfl, rfl⟩

/-- C4 amended: when the summary object is present in the JSON, any
discrepancy with the recomputed counts is corrected silently and a verdict
returned normally (the returned summary always carries the recomputed
counts); when the summary object is absent and the requirements array is
nonempty, the reconciler instead raises a `KeyError` while overwriting the
missing summary. -/
theorem c4_summary_correction :
    (∀ (s : Summary) (reqs : List Req),
      reconcile (some s) reqs = Except.ok (verdict reqs, correctedSummary reqs))
  ∧ (∀ reqs : List Req, reqs ≠ [] →
      reconcile none reqs = Except.error "KeyError: summary") := by
  constructor
  · intro s reqs
    unfold reconcile
    by_cases h : isInconsistent (some s) reqs
    · rw [if_pos h]
    · rw [if_neg h]
      rw [← consistent_summary_eq s reqs (by simpa using h)]
      rfl
  · intro reqs hne
    have h : isInconsistent none reqs = true := by
      unfold isInconsistent summaryOrDefault
      have : reqs.length ≠ 0 := fun h0 => hne (List.length_eq_zero.mp h0)
      have : ((actual_total reqs : Int) == (0 : Int)) = false := by
        unfold actual_total
        simp only [beq_eq_false_iff_ne, ne_eq, Int.natCast_eq_zero]
        exact this
      simp [this]
    unfold reconcile
    rw [if_pos h]

/-! ## C10: items with an absent or falsy `pass` -/

/-- C10: an item whose `pass` key is absent or falsy is counted as failed,
never as passed or partial, and any requirements array containing one gets
the verdict RED (also through the reconciler whenever it returns a
verdict). -/
theorem c10_missing_pass_red (reqs : List Req) (r : Req) (hm : r ∈ reqs)
    (hp : reqPass r = false) :
    0 < actual_failed reqs
  ∧ verdict reqs = "RED"
  ∧ (∀ (s? : Option Summary) (v : String) (s : Summary),
      reconcile s? reqs = Except.ok (v, s) → v = "RED")
  ∧ actual_passed reqs + actual_partials reqs < actual_total reqs := by
  have hf : 0 < actual_failed reqs := by
    unfold actual_failed
    rw [List.countP_pos_iff]
    exact ⟨r, hm, by simp [hp]⟩
  have hfne : actual_failed reqs ≠ 0 := by omega
  have ha : all_passed reqs = false := by
    cases h : all_passed reqs with
    | false => rfl
    | true => exact absurd ((all_passed_iff reqs).mp h) hfne
  have hv : verdict reqs = "RED" := by simp [verdict, ha, hfne]
  refine ⟨hf, hv, ?_, ?_⟩
  · intro s? v s h
    unfold reconcile at h
    by_cases hc : isInconsistent s? reqs
    · rw [if_pos hc] at h
      cases s? with
      | none => exact absurd h (by simp)
      | some s0 =>
        simp only [Except.ok.injEq, Prod.mk.injEq] at h
        rw [← h.1, hv]
    · rw [if_neg hc] at h
      simp only [Except.ok.injEq, Prod.mk.injEq] at h
      rw [← h.1, hv]
  · have := counts_partition reqs
    unfold actual_total
    omega

/-- Witness for C10 at the one-element array whose item lacks the `pass`
key. -/
theorem c10_missing_pass_red_witness :
    ((⟨none, none⟩ : Req) ∈ [(⟨none, none⟩ : Req)] ∧ reqPass ⟨none, none⟩ = false)
  ∧ (0 < actual_failed [(⟨none, none⟩ : Req)]
      ∧ verdict [(⟨none, none⟩ : Req)] = "RED"
      ∧ (∀ (s? : Option Summary) (v : String) (s : Summary),
          reconcile s? [(⟨none, none⟩ : Req)] = Except.ok (v, s) → v = "RED")
      ∧ actual_passed [(⟨none, none⟩ : Req)] + actual_partials [(⟨none, none⟩ : Req)]
          < actual_total [(⟨none, none⟩ : Req)]) :=
  ⟨⟨List.mem_singleton.mpr rfl, rfl⟩,
    c10_missing_pass_red [⟨none, none⟩] ⟨none, none⟩ (List.mem_singleton.mpr rfl) rfl⟩

/-! ## C5: no legacy word protocol -/

/-- Every character of the capture-start suffix comes from the scanned
text. -/
theorem mem_of_mem_fenceTail {a : Char} {cs : List Char} (h : a ∈ fenceTail cs) :
    a ∈ cs := by
  unfold fenceTail at h
  have h2 := (List.dropWhile_suffix isPyWS).subset h
  by_cases hj : jsonWord.isPrefixOf (cs.drop 3)
  · rw [if_pos hj] at h2
    exact List.mem_of_mem_drop (List.mem_of_mem_drop h2)
  · rw [if_neg hj] at h2
    exact List.mem_of_mem_drop h2

/-- A fenced-block match needs an opening brace in the text. -/
theorem fenceAt_eq_none {cs : List Char} (h : lbrace ∉ cs) : fenceAt cs = none := by
  unfold fenceAt
  by_cases hp : fenceMarker.isPrefixOf cs
  · rw [if_pos hp]
    cases ht : fenceTail cs with
    | nil => rfl
    | cons a t =>
      have ha : a ∈ cs := mem_of_mem_fenceTail (ht ▸ List.mem_cons_self a t)
      have : a ≠ lbrace := fun he => h (he ▸ ha)
      simp [this]
  · rw [if_neg hp]

/-- The fence search fails on a text without an opening brace. -/
theorem fenceSearch_eq_none {cs : List Char} (h : lbrace ∉ cs) :
    fenceSearch cs = none := by
  induction cs with
  | nil => rfl
  | cons c t ih =>
    unfold fenceSearch
    rw [fenceAt_eq_none h]
    exact ih (fun hm => h (List.mem_cons_of_mem c hm))

/-- `str.find` of a single character fails iff the character is absent. -/
theorem findSubIdx_single_eq_none {a : Char} {cs : List Char} (h : a ∉ cs) :
    findSubIdx [a] cs = none := by
  induction cs with
  | nil => rfl
  | cons c t ih =>
    unfold findSubIdx
    have hne : a ≠ c := fun he => h (he ▸ List.mem_cons_self c t)
    have : ¬ [a].isPrefixOf (c :: t) := by
      simp [List.isPrefixOf, hne]
    rw [if_neg this, ih (fun hm => h (List.mem_cons_of_mem c hm))]
    rfl

/-- C5 counterexample: the legacy-variant response
`"...RED because clause 4 is unmet..."` contains the token RED (first
occurrence at index 3) and no JSON object; `evaluate_requirements` raises
`ValueError("Response does not contain required JSON structure")` instead
of returning the token as the verdict. -/
theorem c5_legacy_cex :
    findSubIdx "RED".data legacyText = some 3
  ∧ extract_json_str legacyText = none
  ∧ evaluate_response legacyText [] none
      = Except.error "Response does not contain required JSON structure" :=
  ⟨rfl, rfl, rfl⟩

/-- C5 amended: the reconciler does not accept the legacy word protocol —
for every response text containing no opening brace (hence no JSON object),
whatever requirements and summary a parse would give, the evaluation raises
`ValueError("Response does not contain required JSON structure")`, even
when the text contains one of the tokens GREEN/YELLOW/ORANGE/RED. -/
theorem c5_no_legacy (text : List Char) (reqs : List Req) (s? : Option Summary)
    (h : lbrace ∉ text) :
    evaluate_response text reqs s?
      = Except.error "Response does not contain required JSON structure" := by
  unfold evaluate_response extract_json_str braceExtract
  rw [fenceSearch_eq_none h, findSubIdx_single_eq_none h]

/-- Witness for C5 at the claim's sample legacy response. -/
theorem c5_no_legacy_witness :
    lbrace ∉ legacyText
  ∧ evaluate_response legacyText [] none
      = Except.error "Response does not contain required JSON structure" :=
  ⟨by decide, c5_no_legacy legacyText [] none (by decide)⟩

/-! ## C9: image-based PDF routing -/

/-- C9 counterexample: a PDF with no pages at all satisfies "every page
yields empty extracted text" vacuously, yet `page_count > 0` fails and the
standard extraction path (local Markdown conversion first) is taken, not
the direct OCR route. -/
theorem c9_zero_pages_cex :
    ([] : List String).all strippedEmpty = true
  ∧ pdf_route [] = PdfRoute.standard :=
  ⟨rfl, rfl⟩

/-- C9 amended: for every PDF with at least one page in which every page
yields empty (or all-whitespace) text from the local text-layer reader,
extraction classifies the document as image-based and takes the direct OCR
route, before any local Markdown conversion or per-page fallback. -/
theorem c9_image_pdf_ocr (pages : List String) (hne : pages ≠ [])
    (hempty : ∀ p ∈ pages, strippedEmpty p = true) :
    pdf_route pages = PdfRoute.ocr := by
  unfold pdf_route
  have h1 : pages.all strippedEmpty = true := List.all_eq_true.mpr hempty
  have h2 : 0 < pages.length := List.length_pos.mpr hne
  simp [h1, h2]

/-- Witness for C9 at a one-page PDF whose page text is empty. -/
theorem c9_image_pdf_ocr_witness :
    ((([""] : List String) ≠ []) ∧ (∀ p ∈ ([""] : List String), strippedEmpty p = true))
  ∧ pdf_route [""] = PdfRoute.ocr :=
  ⟨⟨by simp, by simp [strippedEmpty]⟩,
    c9_image_pdf_ocr [""] (by simp) (by simp [strippedEmpty])⟩

/-! ## C7: HTML-table formatter -/

/-- C7 counterexample: on a table with two header columns and a one-cell
data row, the emitted output keeps the short row as the single cell `x` —
the data row has one cell, not two; nothing is padded (and symmetrically
nothing would be truncated). -/
theorem c7_no_padding_cex :
    html_table_to_md ⟨["a", "b"], [⟨ColAlign.left⟩, ⟨ColAlign.left⟩], [["x"]]⟩
      = Except.ok "\n\na|b|\n---|---|\nx\n\n"
  ∧ tableRowStrings ⟨["a", "b"], [⟨ColAlign.left⟩, ⟨ColAlign.left⟩], [["x"]]⟩
      = ["a|b", "---|---", "x"]
  ∧ (["x"] : List String).length ≠ (["a", "b"] : List String).length :=
  ⟨by rfl, by rfl, by decide⟩

/-- Setting entries of a marker list keeps its length and keeps every entry
one of the three markers. -/
theorem alignMarks_foldl_invariant (cols : List (Nat × ColumnInfo)) :
    ∀ acc : List String,
      (∀ m ∈ acc, m = "---" ∨ m = ":---:" ∨ m = "---:") →
      (cols.foldl
        (fun acc ic =>
          match ic.2.alignment with
          | ColAlign.center => acc.set ic.1 ":---:"
          | ColAlign.right => acc.set ic.1 "---:"
          | ColAlign.left => acc)
        acc).length = acc.length
      ∧ ∀ m ∈ cols.foldl
          (fun acc ic =>
            match ic.2.alignment with
            | ColAlign.center => acc.set ic.1 ":---:"
            | ColAlign.right => acc.set ic.1 "---:"
            | ColAlign.left => acc)
          acc, m = "---" ∨ m = ":---:" ∨ m = "---:" := by
  induction cols with
  | nil => exact fun acc h => ⟨rfl, h⟩
  | cons ic t ih =>
    intro acc hacc
    cases hal : ic.2.alignment with
    | left =>
      have := ih acc hacc
      simpa [List.foldl_cons, hal] using this
    | center =>
      have hset : ∀ m ∈ acc.set ic.1 ":---:", m = "---" ∨ m = ":---:" ∨ m = "---:" := by
        intro m hm
        rcases List.mem_or_eq_of_mem_set hm with h | h
        · exact hacc m h
        · exact Or.inr (Or.inl h)
      have := ih (acc.set ic.1 ":---:") hset
      simpa [List.foldl_cons, hal, List.length_set] using this
    | right =>
      have hset : ∀ m ∈ acc.set ic.1 "---:", m = "---" ∨ m = ":---:" ∨ m = "---:" := by
        intro m hm
        rcases List.mem_or_eq_of_mem_set hm with h | h
        · exact hacc m h
        · exact Or.inr (Or.inr h)
      have := ih (acc.set ic.1 "---:") hset
      simpa [List.foldl_cons, hal, List.length_set] using this

/-- C7 amended: whenever the per-column alignment data stays within the
header count (otherwise Python raises `IndexError`), the formatter emits
the header row, then a separator row of exactly `N = len(headers)`
alignment markers, then the data rows; each data row keeps exactly its own
number of cells — short rows are not padded and long rows are not
truncated. -/
theorem c7_separator (t : HtmlTable) (herr : alignIndexErr t = false) :
    (alignMarks t).length = t.headers.length
  ∧ (∀ m ∈ alignMarks t, m = "---" ∨ m = ":---:" ∨ m = "---:")
  ∧ html_table_to_md t
      = Except.ok ("\n\n" ++ String.intercalate "|\n" (tableRowStrings t) ++ "\n\n")
  ∧ tableRowStrings t
      = String.intercalate "|" t.headers
        :: String.intercalate "|" (alignMarks t)
        :: t.rows.map (fun row => String.intercalate "|" (row.map (fun c => String.mk (replaceChar '\n' [' '] c.data))))
  ∧ (∀ row ∈ t.rows, (row.map (fun c => String.mk (replaceChar '\n' [' '] c.data))).length = row.length) := by
  have hinv := alignMarks_foldl_invariant t.columns.enum
    (List.replicate t.headers.length "---") (by intro m hm; simp [List.eq_of_mem_replicate hm])
  refine ⟨?_, hinv.2, ?_, rfl, ?_⟩
  · unfold alignMarks
    rw [hinv.1, List.length_replicate]
  · unfold html_table_to_md
    rw [herr]
    rfl
  · intro row _
    exact List.length_map row _

/-- Witness for C7 at a two-column table with one right-aligned column and
a short and a long data row. -/
theorem c7_separator_witness :
    alignIndexErr ⟨["a", "b"], [⟨ColAlign.left⟩, ⟨ColAlign.right⟩], [["x"], ["u", "v", "w"]]⟩
      = false
  ∧ ((alignMarks ⟨["a", "b"], [⟨ColAlign.left⟩, ⟨ColAlign.right⟩], [["x"], ["u", "v", "w"]]⟩).length
      = (["a", "b"] : List String).length
    ∧ (∀ m ∈ alignMarks ⟨["a", "b"], [⟨ColAlign.left⟩, ⟨ColAlign.right⟩], [["x"], ["u", "v", "w"]]⟩,
        m = "---" ∨ m = ":---:" ∨ m = "---:")
    ∧ html_table_to_md ⟨["a", "b"], [⟨ColAlign.left⟩, ⟨ColAlign.right⟩], [["x"], ["u", "v", "w"]]⟩
        = Except.ok ("\n\n" ++ String.intercalate "|\n"
            (tableRowStrings ⟨["a", "b"], [⟨ColAlign.left⟩, ⟨ColAlign.right⟩], [["x"], ["u", "v", "w"]]⟩) ++ "\n\n")
    ∧ tableRowStrings ⟨["a", "b"], [⟨ColAlign.left⟩, ⟨ColAlign.right⟩], [["x"], ["u", "v", "w"]]⟩
        = String.intercalate "|" (["a", "b"] : List String)
          :: String.intercalate "|" (alignMarks ⟨["a", "b"], [⟨ColAlign.left⟩, ⟨ColAlign.right⟩], [["x"], ["u", "v", "w"]]⟩)
          :: ([["x"], ["u", "v", "w"]] : List (List String)).map
              (fun row => String.intercalate "|" (row.map (fun c => String.mk (replaceChar '\n' [' '] c.data))))
    ∧ (∀ row ∈ ([["x"], ["u", "v", "w"]] : List (List String)),
        (row.map (fun c => String.mk (replaceChar '\n' [' '] c.data))).length = row.length)) :=
  ⟨rfl, c7_separator ⟨["a", "b"], [⟨ColAlign.left⟩, ⟨ColAlign.right⟩], [["x"], ["u", "v", "w"]]⟩ rfl⟩

/-! ## C8: plain text / Markdown files are still post-processed -/

/-- Without a table match anywhere, the substitution scan copies the text
unchanged (given enough fuel, which `sub_html_tables` always supplies). -/
theorem subTablesAux_id (f : List Char → List Char) :
    ∀ (l : List Char) (fuel : Nat), hasTableMatch l = false → l.length ≤ fuel →
      subTablesAux f fuel l = l := by
  intro l
  induction l with
  | nil => intro fuel _ _; cases fuel <;> rfl
  | cons c t ih =>
    intro fuel hm hf
    cases fuel with
    | zero => simp at hf
    | succ fuel =>
      unfold hasTableMatch at hm
      rw [Bool.or_eq_false_iff] at hm
      have hmt : matchTableAt (c :: t) = none := by
        cases hx : matchTableAt (c :: t) with
        | none => rfl
        | some p => rw [hx] at hm; exact absurd hm.1 (by simp)
      unfold subTablesAux
      rw [hmt, ih fuel hm.2 (by simpa using Nat.le_of_succ_le_succ hf)]

/-- C8 counterexample: plain-text content is not returned verbatim — with a
character budget of 3 the six-character content `abcdef` (containing no
table) comes back truncated to `abc`, and a content consisting of one HTML
table fragment comes back replaced by the formatter's output. -/
theorem c8_plain_processed_cex :
    hasTableMatch "abcdef".data = false
  ∧ extract_plain (fun _ => []) "abcdef" 3 = "abc"
  ∧ ("abc" : String) ≠ "abcdef"
  ∧ extract_plain (fun _ => "T".data) "<table><tr>x</tr></table>" 0 = "T"
  ∧ ("T" : String) ≠ "<table><tr>x</tr></table>" :=
  ⟨by rfl, by rfl, by decide, by rfl, by decide⟩

/-- C8 amended: a plain text/Markdown file's content is returned verbatim
only when the HTML-table substitution and the truncation do not fire: the
non-PDF branch still runs both, and the content passes through unchanged
exactly when it contains no HTML-table fragment and the character budget is
zero (unset) or at least the content length. -/
theorem c8_plain_verbatim (f : List Char → List Char) (content : String)
    (max_chars : Nat) (h1 : hasTableMatch content.data = false)
    (h2 : max_chars = 0 ∨ content.length ≤ max_chars) :
    extract_plain f content max_chars = content := by
  unfold extract_plain sub_html_tables
  rw [subTablesAux_id f content.data content.data.length h1 le_rfl]
  have hs : String.mk content.data = content := rfl
  rw [hs]
  unfold apply_char_limit
  rcases h2 with h | h
  · simp [h]
  · have : ¬ max_chars < content.length := by omega
    simp [this]

/-- Witness for C8 at a two-character table-free content with an unset
budget. -/
theorem c8_plain_verbatim_witness :
    hasTableMatch "hi".data = false
  ∧ extract_plain (fun _ => []) "hi" 0 = "hi" :=
  ⟨by rfl, c8_plain_verbatim (fun _ => []) "hi" 0 (by rfl) (Or.inl rfl)⟩

/-! ## C6: geometry reconciliation -/

/-- The containment classification, unfolded to the collected cells: the
rounded line corner lies in the rounded extent of some cell box. -/
theorem in_table_check_mem (tps : List BBox) (lk : BBox) :
    in_table_check tps lk = true ↔
      ∃ t ∈ tps, t.top ≤ lk.top ∧ lk.top ≤ t.top + t.height
        ∧ t.left ≤ lk.left ∧ lk.left ≤ t.left + t.width := by
  unfold in_table_check
  rw [List.any_eq_true]
  constructor <;> rintro ⟨t, ht, hc⟩
  · simp only [Bool.and_eq_true, decide_eq_true_eq] at hc
    exact ⟨t, ht, hc.1.1.1, hc.1.1.2, hc.1.2, hc.2⟩
  · refine ⟨t, ht, ?_⟩
    simp only [Bool.and_eq_true, decide_eq_true_eq]
    exact ⟨⟨⟨hc.1, hc.2.1⟩, hc.2.2.1⟩, hc.2.2.2⟩

/-- Membership in the collected rounded cell boxes of a page. -/
theorem mem_table_positions (tables : List (List (List Cell))) (t : BBox) :
    t ∈ table_positions tables ↔
      ∃ c ∈ tables.flatten.flatten, ∃ cb, c.geometry = some cb ∧ t = posKey cb := by
  unfold table_positions
  rw [List.mem_filterMap]
  constructor
  · rintro ⟨c, hc, hm⟩
    obtain ⟨cb, hcb, hpk⟩ := Option.map_eq_some'.mp hm
    exact ⟨c, hc, cb, hcb, hpk.symm⟩
  · rintro ⟨c, hc, cb, hcb, ht⟩
    exact ⟨c, hc, by rw [hcb, ht]; rfl⟩

/-- The containment classification, unfolded to the collected cells: the
rounded line corner lies in the rounded extent of some cell box. -/
theorem in_table_iff (tables : List (List (List Cell))) (b : BBox) :
    in_table_check (table_positions tables) (posKey b) = true ↔
      ∃ c ∈ tables.flatten.flatten, ∃ cb, c.geometry = some cb
        ∧ round4 cb.top ≤ round4 b.top
        ∧ round4 b.top ≤ round4 cb.top + round4 cb.height
        ∧ round4 cb.left ≤ round4 b.left
        ∧ round4 b.left ≤ round4 cb.left + round4 cb.width := by
  rw [in_table_check_mem]
  constructor
  · rintro ⟨t, ht, h1, h2, h3, h4⟩
    obtain ⟨c, hc, cb, hcb, rfl⟩ := (mem_table_positions tables t).mp ht
    refine ⟨c, hc, cb, hcb, ?_, ?_, ?_, ?_⟩
    · simpa [posKey] using h1
    · simpa [posKey] using h2
    · simpa [posKey] using h3
    · simpa [posKey] using h4
  · rintro ⟨c, hc, cb, hcb, h1, h2, h3, h4⟩
    refine ⟨posKey cb, (mem_table_positions tables (posKey cb)).mpr ⟨c, hc, cb, hcb, rfl⟩,
      ?_, ?_, ?_, ?_⟩
    · simpa [posKey] using h1
    · simpa [posKey] using h2
    · simpa [posKey] using h3
    · simpa [posKey] using h4

/-- C6: (i) a line is classified inside a table exactly when its rounded
top-left corner falls within the rounded extent of some table-cell box;
(ii) consequently, whenever every line carries a bounding box whose rounded
corner lies in no rounded cell extent, the emitted body text lists every
line's text exactly once, in order — never duplicated, never dropped. -/
theorem c6_geometry :
    (∀ (tables : List (List (List Cell))) (b : BBox),
      in_table_check (table_positions tables) (posKey b) = true ↔
        ∃ c ∈ tables.flatten.flatten, ∃ cb, c.geometry = some cb
          ∧ round4 cb.top ≤ round4 b.top
          ∧ round4 b.top ≤ round4 cb.top + round4 cb.height
          ∧ round4 cb.left ≤ round4 b.left
          ∧ round4 b.left ≤ round4 cb.left + round4 cb.width)
  ∧ (∀ (tables : List (List (List Cell))) (lines : List OcrLine),
      (∀ l ∈ lines, ∃ b, l.geometry = some b
        ∧ ¬ ∃ c ∈ tables.flatten.flatten, ∃ cb, c.geometry = some cb
          ∧ round4 cb.top ≤ round4 b.top
          ∧ round4 b.top ≤ round4 cb.top + round4 cb.height
          ∧ round4 cb.left ≤ round4 b.left
          ∧ round4 b.left ≤ round4 cb.left + round4 cb.width) →
      page_body_lines (table_positions tables) lines = lines.map OcrLine.text) := by
  refine ⟨in_table_iff, ?_⟩
  intro tables lines hprem
  induction lines with
  | nil => rfl
  | cons l t ih =>
    obtain ⟨b, hb, hnot⟩ := hprem l (List.mem_cons_self l t)
    have hfalse : in_table_check (table_positions tables) (posKey b) = false := by
      cases hx : in_table_check (table_positions tables) (posKey b) with
      | false => rfl
      | true => exact absurd ((in_table_iff tables b).mp hx) hnot
    unfold page_body_lines at *
    rw [List.filterMap_cons, hb]
    simp only [hfalse, Bool.false_eq_true, if_false]
    rw [ih (fun l' hl' => hprem l' (List.mem_cons_of_mem l hl'))]
    rfl

/-- Round-half-even of an integer is the integer itself. -/
theorem rhe_intCast (n : ℤ) : rhe (n : ℚ) = n := by
  unfold rhe
  rw [Int.floor_intCast]
  norm_num

/-- Round-half-even below the halfway point rounds down. -/
theorem rhe_eq_floor (q : ℚ) (h : q - ⌊q⌋ < 1 / 2) : rhe q = ⌊q⌋ := by
  unfold rhe
  rw [if_pos h]

/-- A coordinate that is an exact multiple of `1/10000` is unchanged by the
rounding. -/
theorem round4_exact (q : ℚ) (n : ℤ) (h : q * 10000 = (n : ℚ)) : round4 q = q := by
  unfold round4
  rw [h, rhe_intCast]
  field_simp at h ⊢
  linarith

/-- The rounding of the counterexample line's top coordinate collapses onto
the cell boundary. -/
theorem round4_cex_top : round4 (10003 / 100000 : ℚ) = 1 / 10 := by
  have hm : (10003 / 100000 : ℚ) * 10000 = 10003 / 10 := by norm_num
  have hf : ⌊(10003 / 10 : ℚ)⌋ = 1000 := by
    rw [Int.floor_eq_iff]
    norm_num
  unfold round4
  rw [hm, rhe_eq_floor _ (by rw [hf]; norm_num), hf]
  norm_num

/-- C6 counterexample: the line box `(0.10003, 0.2, 0.1, 0.01)` does not
overlap the cell box `(0, 0, 0.5, 0.1)` (they are separated vertically),
yet after rounding to four decimals the line's corner lands exactly on the
cell extent, the line is classified as inside the table, and its text `L`
is dropped: the body emits no line and the page Markdown holds only the
cell text `C`. -/
theorem c6_rounding_cex :
    boxesDisjoint ⟨0, 0, 1 / 2, 1 / 10⟩ ⟨10003 / 100000, 1 / 5, 1 / 10, 1 / 100⟩ = true
  ∧ page_body_lines
      (table_positions [[[⟨some ⟨0, 0, 1 / 2, 1 / 10⟩, "C"⟩]]])
      [⟨some ⟨10003 / 100000, 1 / 5, 1 / 10, 1 / 100⟩, "L"⟩] = []
  ∧ page_markdown [[[⟨some ⟨0, 0, 1 / 2, 1 / 10⟩, "C"⟩]]]
      [⟨some ⟨10003 / 100000, 1 / 5, 1 / 10, 1 / 100⟩, "L"⟩]
      = "### Table 1\n\n| C |\n| --- |\n\n" := by
  have hd : boxesDisjoint ⟨0, 0, 1 / 2, 1 / 10⟩
      ⟨10003 / 100000, 1 / 5, 1 / 10, 1 / 100⟩ = true := by
    unfold boxesDisjoint
    simp only [Bool.or_eq_true, decide_eq_true_eq]
    left
    norm_num
  have hk : posKey ⟨0, 0, 1 / 2, 1 / 10⟩ = ⟨0, 0, 1 / 2, 1 / 10⟩ := by
    unfold posKey
    rw [round4_exact 0 0 (by norm_num), round4_exact (1 / 2) 5000 (by norm_num),
      round4_exact (1 / 10) 1000 (by norm_num)]
  have hkl : posKey ⟨10003 / 100000, 1 / 5, 1 / 10, 1 / 100⟩
      = ⟨1 / 10, 1 / 5, 1 / 10, 1 / 100⟩ := by
    unfold posKey
    rw [round4_cex_top, round4_exact (1 / 5) 2000 (by norm_num),
      round4_exact (1 / 10) 1000 (by norm_num), round4_exact (1 / 100) 100 (by norm_num)]
  have htp : table_positions [[[⟨some ⟨0, 0, 1 / 2, 1 / 10⟩, "C"⟩]]]
      = [posKey ⟨0, 0, 1 / 2, 1 / 10⟩] := rfl
  have hin : in_table_check (table_positions [[[⟨some ⟨0, 0, 1 / 2, 1 / 10⟩, "C"⟩]]])
      (posKey ⟨10003 / 100000, 1 / 5, 1 / 10, 1 / 100⟩) = true := by
    rw [htp, hk, hkl]
    unfold in_table_check
    simp only [List.any_cons, List.any_nil, Bool.or_false, Bool.and_eq_true,
      decide_eq_true_eq]
    norm_num
  have hbody : page_body_lines
      (table_positions [[[⟨some ⟨0, 0, 1 / 2, 1 / 10⟩, "C"⟩]]])
      [⟨some ⟨10003 / 100000, 1 / 5, 1 / 10, 1 / 100⟩, "L"⟩] = [] := by
    unfold page_body_lines
    rw [List.filterMap_cons]
    simp only [hin, if_true]
    rfl
  refine ⟨hd, hbody, ?_⟩
  unfold page_markdown page_body_md
  rw [hbody]
  rfl
